import Mathlib

/-!
Shallow embedding of the `sup` parallel command orchestrator
(cmd/sup/main.go, internal/sup/sup.go, internal/sup/localhost.go),
together with theorems settling the specification claims about it.

Go machine-level conventions used throughout the embedding:
strings are Lean `String`s, Go slices are Lean `List`s, Go `nil`-able
results are `Option`s and fallible functions return `Except`.
-/

set_option autoImplicit false

namespace Sup

/-- Modelled from the spec: `pkg/colors` is outside the sources; the spec
says the localhost display label is preceded by a color-reset escape, the
standard ANSI reset sequence. -/
def ResetColor : String := "\x1b[0m"

/-- A `Task` as consumed by the run loop (internal/sup): the final shell
snippet `run`, the identities of the clients it targets, and whether an
input byte source is bound to the task's standard input. -/
structure Task where
  run : String
  clientIds : List Nat
  hasInput : Bool
deriving DecidableEq, Repr

/-- State of `LocalhostClient` (internal/sup/localhost.go): the recorded
OS user, the environment-export string, the `running` flag, and the
liveness of the three standard-stream pipes. -/
structure LocalhostClient where
  user : String
  env : String
  running : Bool
  stdinLive : Bool
  stdoutLive : Bool
  stderrLive : Bool
deriving DecidableEq, Repr

/-- Outcome of `LocalhostClient.Run`: either the early error, or the
spawned process's program and argument vector. -/
inductive RunOutcome where
  | failed (msg : String)
  | started (program : String) (args : List String)
deriving DecidableEq, Repr

/-- `LocalhostClient.Run` (localhost.go lines 35-71): refuse when already
running; otherwise build `cmdArgs = ["-c", c.env + task.Run]`, spawn
`bash`, wire the three pipes, and set `running`. -/
def LocalhostClient.Run (c : LocalhostClient) (t : Task) : LocalhostClient × RunOutcome :=
  if c.running then
    (c, .failed "Command already running")
  else
    ({ c with running := true, stdinLive := true, stdoutLive := true, stderrLive := true },
     .started "bash" ["-c", c.env ++ t.run])

/-- `LocalhostClient.Prefix` (localhost.go lines 100-103):
`host := c.user + "@localhost" + " | "`, returning
`(ResetColor + host, len(host))`. -/
def LocalhostClient.Prefix (c : LocalhostClient) : String × Nat :=
  let host := c.user ++ "@localhost" ++ " | "
  (ResetColor ++ host, host.length)

/-- Left-padding of a display label in the run loop (sup.go lines
150-155 and 241-249): given the run-wide `maxLen`, the raw label `pfx`
and its printable length `pfxLen`, pad with spaces when
`len(pfx) < maxLen`, by `maxLen - pfxLen` spaces. -/
def padPrefix (maxLen : Nat) (pfx : String) (pfxLen : Nat) : String :=
  if pfx.length < maxLen then String.mk (List.replicate (maxLen - pfxLen) ' ') ++ pfx else pfx

/-- `maxLen` computation (sup.go lines 109-120): the maximum of the
clients' printable label lengths, starting from 0. -/
def maxPrefixLen (lens : List Nat) : Nat :=
  lens.foldl (fun m l => if l > m then l else m) 0

/-- Result of `c.Wait()` when it is non-nil (sup.go lines 238-261): in Go
either an `*ssh.ExitError` carrying a numeric status, or any other error;
`msg` is the error's printed rendering. -/
inductive WaitErr where
  | exitError (status : Nat) (msg : String)
  | otherError (msg : String)
deriving DecidableEq, Repr

/-- What a per-client waiter goroutine does after `Wait` returns. -/
inductive WaiterResult where
  | continueRun
  | printedExit (line : String) (code : Nat)
deriving DecidableEq, Repr

/-- The waiter body of the run loop (sup.go lines 235-262): on a nil
error do nothing; otherwise compute the (optionally padded) label, and
if the error is an `ExitError` with status other than 15 print it and
exit with that status, else print it and exit with status 1. -/
def waiterOutcome (withPfx : Bool) (maxLen : Nat) (pfxPair : String × Nat) :
    Option WaitErr → WaiterResult
  | none => .continueRun
  | some e =>
    let pfx := if withPfx then padPrefix maxLen pfxPair.1 pfxPair.2 else ""
    match e with
    | .exitError s msg =>
      if s ≠ 15 then .printedExit (pfx ++ msg) s else .printedExit (pfx ++ msg) 1
    | .otherError msg => .printedExit (pfx ++ msg) 1

/-- The observable effect of the stdin pump (sup.go lines 191-205):
when the task has an `Input`, a goroutine copies the input into
`io.MultiWriter(writers...)` — `writers` being the stdin writers
recorded for the task's clients, in order — and afterwards calls
`WriteClose` on every element of `clients`, the run's full client list. -/
structure StdinPumpTrace where
  copyTargets : List Nat
  closeTargets : List Nat
deriving DecidableEq, Repr

/-- The stdin-pump launch in the run loop: `clients` is the run's client
list, `t.clientIds` the task's clients whose stdin writers were recorded. -/
def runStdinPump (clients : List Nat) (t : Task) : Option StdinPumpTrace :=
  if t.hasInput then some ⟨t.clientIds, clients⟩ else none

/-- A client as created by the connect phase of `Stackup.Run` (sup.go
lines 62-102): either a localhost client or an SSH client with its
user and palette color. Only the fields the claims speak about are kept. -/
inductive ClientSpec where
  | localhost (env : String)
  | ssh (env : String) (user : String) (color : String)
deriving DecidableEq, Repr

/-- The `export SUP_HOST="<host>";` suffix appended to the environment
string of every client (sup.go lines 71 and 85). -/
def exportHost (h : String) : String := "export SUP_HOST=\"" ++ h ++ "\";"

/-- Client construction for host number `i` (sup.go lines 65-102): a
localhost client exactly when the address is `"localhost"`, otherwise an
SSH client colored by `colors.Colors[i % len(colors.Colors)]`. -/
def mkClient (env user : String) (palette : List String) (i : Nat) (host : String) :
    ClientSpec :=
  if host == "localhost" then
    .localhost (env ++ exportHost host)
  else
    .ssh (env ++ exportHost host) user (palette.getD (i % palette.length) "")

/-- The connect-all loop (`for i, host := range net.Hosts`, sup.go line
62): one client per host, indexed from `i`. -/
def connectAll (env user : String) (palette : List String) : Nat → List String → List ClientSpec
  | _, [] => []
  | i, h :: t => mkClient env user palette i h :: connectAll env user palette (i + 1) t

/-- The observable start of `Stackup.Run` (sup.go lines 40-107): whether
the bastion was contacted, which clients were created, and the error
returned, if any. -/
structure RunTrace where
  bastionConnected : Bool
  clients : List ClientSpec
  err : Option String
deriving DecidableEq, Repr

/-- `Stackup.Run`'s entry (sup.go lines 40-107): an empty command list
returns `"no commands to be run"` before the bastion or any host is
contacted; otherwise the bastion is connected when `net.Bastion != ""`
and one client per host is created. -/
def stackupRunStart (bastion user env : String) (palette : List String)
    (hosts : List String) (commands : List String) : RunTrace :=
  if commands.isEmpty then
    ⟨false, [], some "no commands to be run"⟩
  else
    ⟨bastion != "", connectAll env user palette 0 hosts, none⟩

/-- The parts of the Supfile configuration that argument resolution
(cmd/sup/main.go) consults: the named targets (each an ordered list of
command names) and the set of defined command names. Commands are
identified by the `Name` field set at dispatch time, so a dispatched
command is represented by its name. -/
structure Conf where
  targets : List (String × List String)
  cmdNames : List String
deriving DecidableEq, Repr

/-- `conf.Targets.Get(name)` — first-match association lookup. -/
def lookupTarget (conf : Conf) (n : String) : Option (List String) :=
  (conf.targets.find? (fun p => p.1 == n)).map (fun p => p.2)

/-- `conf.Commands.Get(name)` reduced to its boolean: is `n` a defined
command name? -/
def isCommand (conf : Conf) (n : String) : Bool := conf.cmdNames.contains n

/-- Target expansion (main.go lines 120-131): for each command name of
the target in order, fail with the unknown-command error if it is not a
defined command, else append it. -/
def expandTarget (conf : Conf) : List String → Except String (List String)
  | [] => .ok []
  | c :: rest =>
    if isCommand conf c then
      match expandTarget conf rest with
      | .error e => .error e
      | .ok cs => .ok (c :: cs)
    else
      .error ("Unknown command/target: " ++ c)

/-- Resolution of one argument after NETWORK (main.go lines 116-144):
the name is looked up as a target; if it is one, the target's commands
are appended (failing on an unknown member). Independently, if the name
is a defined command it is appended as well. A name that is neither
fails with the unknown-command error. -/
def resolveArg (conf : Conf) (n : String) : Except String (List String) :=
  match lookupTarget conf n with
  | some tnames =>
    match expandTarget conf tnames with
    | .error e => .error e
    | .ok expanded => .ok (expanded ++ (if isCommand conf n then [n] else []))
  | none =>
    if isCommand conf n then .ok [n]
    else .error ("Unknown command/target: " ++ n)

/-- The dispatch loop over `args[1:]` (main.go lines 116-144): arguments
contribute left to right; the first failing argument aborts. -/
def parseArgsCommands (conf : Conf) : List String → Except String (List String)
  | [] => .ok []
  | a :: rest =>
    match resolveArg conf a with
    | .error e => .error e
    | .ok cs =>
      match parseArgsCommands conf rest with
      | .error e => .error e
      | .ok cs2 => .ok (cs ++ cs2)

/-- Resolution of one argument as the claim words it: first as a command
name and otherwise as a target name. Stated for comparison with
`resolveArg`, the source's behaviour. -/
def claimResolveArg (conf : Conf) (n : String) : Except String (List String) :=
  if isCommand conf n then .ok [n]
  else
    match lookupTarget conf n with
    | some tnames => expandTarget conf tnames
    | none => .error ("Unknown command/target: " ++ n)

/-- `--only` filtering (main.go lines 208-230): keep the hosts the
compiled regex matches, in order; an empty result prints an error and
exits with status 1. The compiled POSIX regex is abstracted as its
match predicate. An absent flag leaves the hosts unchanged. -/
def applyOnly (only : Option (String → Bool)) (hosts : List String) :
    Except Nat (List String) :=
  match only with
  | none => .ok hosts
  | some m =>
    let hs := hosts.filter m
    if hs.isEmpty then .error 1 else .ok hs

/-- `--except` filtering (main.go lines 232-254): drop the hosts the
compiled regex matches; an empty result prints an error and exits with
status 1. -/
def applyExcept (exc : Option (String → Bool)) (hosts : List String) :
    Except Nat (List String) :=
  match exc with
  | none => .ok hosts
  | some m =>
    let hs := hosts.filter (fun h => !(m h))
    if hs.isEmpty then .error 1 else .ok hs

/-- The host-filtering phase of `main` in order: `--only` then
`--except`. -/
def filterHosts (only exc : Option (String → Bool)) (hosts : List String) :
    Except Nat (List String) :=
  match applyOnly only hosts with
  | .error c => .error c
  | .ok hs => applyExcept exc hs

/-- `main`'s behaviour around host filtering: on a filter failure the
process exits with the filter's status and no host is ever handed to
`Stackup.Run` (the filters run before `sup.New`/`app.Run`, main.go lines
208-311); otherwise the surviving hosts are the ones the run will
connect. The pair is (exit status, hosts passed on to the run). -/
def hostsPhase (only exc : Option (String → Bool)) (hosts : List String) :
    Option Nat × List String :=
  match filterHosts only exc hosts with
  | .error c => (some c, [])
  | .ok hs => (none, hs)

/-- Modelled from the spec: `internal/envs` is outside the sources; an
`EnvList` is an ordered sequence of key/value pairs and `Set` updates an
existing key in place or appends. -/
def EnvList := List (String × String)

/-- Modelled from the spec: `Set` updates the entry of an existing key in
place, or appends a new entry. -/
def EnvList.set : EnvList → String → String → EnvList
  | [], k, v => [(k, v)]
  | p :: t, k, v => if p.1 == k then (k, v) :: t else p :: EnvList.set t k v

/-- Lookup of a key's current value in an `EnvList`: the first entry
with that key. -/
def EnvList.get : EnvList → String → Option String
  | [], _ => none
  | p :: t, k => if p.1 == k then some p.2 else EnvList.get t k

/-- The default-environment setup of `parseArgs` (main.go lines 100-114):
set `SUP_NETWORK`, set `SUP_TIME` to the formatted current UTC time, then
override it with the operator's `SUP_TIME` environment variable when that
is non-empty, then set `SUP_USER` from `SUP_USER` or `USER`.
`nowRFC3339` stands for `time.Now().UTC().Format(time.RFC3339)`. -/
def setupDefaultEnv (netEnv : EnvList) (networkName nowRFC3339 supTimeOS supUserOS userOS :
    String) : EnvList :=
  let e1 := EnvList.set netEnv "SUP_NETWORK" networkName
  let e2 := EnvList.set e1 "SUP_TIME" nowRFC3339
  let e3 := if supTimeOS ≠ "" then EnvList.set e2 "SUP_TIME" supTimeOS else e2
  if supUserOS ≠ "" then EnvList.set e3 "SUP_USER" supUserOS
  else EnvList.set e3 "SUP_USER" userOS

/-! ## Helper lemmas -/

theorem envList_get_set_self (env : EnvList) (k v : String) :
    EnvList.get (EnvList.set env k v) k = some v := by
  induction env with
  | nil => simp [EnvList.set, EnvList.get]
  | cons p t ih =>
    by_cases h : p.1 = k
    · simp [EnvList.set, EnvList.get, h]
    · simp [EnvList.set, EnvList.get, h, ih]

theorem envList_get_set_ne (env : EnvList) (k k2 v : String) (h : k ≠ k2) :
    EnvList.get (EnvList.set env k2 v) k = EnvList.get env k := by
  induction env with
  | nil => simp [EnvList.set, EnvList.get, Ne.symm h]
  | cons p t ih =>
    by_cases hp : p.1 = k2
    · simp [EnvList.set, EnvList.get, hp, Ne.symm h]
    · simp [EnvList.set, EnvList.get, hp, ih]

theorem connectAll_length (env user : String) (palette : List String)
    (hosts : List String) : ∀ i, (connectAll env user palette i hosts).length = hosts.length := by
  induction hosts with
  | nil => intro i; rfl
  | cons h t ih => intro i; simp [connectAll, ih]

theorem connectAll_get (env user : String) (palette : List String) (hosts : List String) :
    ∀ (i j : Nat) (h1 : j < hosts.length)
      (h2 : j < (connectAll env user palette i hosts).length),
      (connectAll env user palette i hosts).get ⟨j, h2⟩
        = mkClient env user palette (i + j) (hosts.get ⟨j, h1⟩) := by
  induction hosts with
  | nil => intro i j h1 _; exact absurd h1 (by simp)
  | cons h t ih =>
    intro i j h1 h2
    cases j with
    | zero => simp [connectAll]
    | succ k =>
      have hk : k < t.length := by simpa using h1
      have hk2 : k < (connectAll env user palette (i + 1) t).length := by
        simpa [connectAll] using h2
      have := ih (i + 1) k hk hk2
      simpa [connectAll, Nat.add_assoc, Nat.add_comm 1 k] using this

/-! ## Claim theorems -/

/-- C10: for every network and environment, `Stackup.Run` with an empty
command list returns the error `"no commands to be run"` without
connecting to the bastion or to any host, and without executing
anything. -/
theorem run_no_commands (bastion user env : String) (palette : List String)
    (hosts : List String) :
    stackupRunStart bastion user env palette hosts []
      = ⟨false, [], some "no commands to be run"⟩ := rfl

/-- C7: for every `LocalhostClient` with user `u`, `Prefix()` returns the
color-reset escape followed by `u@localhost | `, paired with a printable
length equal to the length of `u@localhost | ` alone — the full string's
length minus the escape's. -/
theorem localhost_prefix_spec (c : LocalhostClient) :
    LocalhostClient.Prefix c
      = (ResetColor ++ (c.user ++ "@localhost | "), (c.user ++ "@localhost | ").length)
    ∧ ( LocalhostClient.Prefix c).2 = ( LocalhostClient.Prefix c).1.length - ResetColor.length := by
  have hassoc : c.user ++ "@localhost" ++ " | " = c.user ++ "@localhost | " := by
    rw [String.append_assoc]
    exact congrArg (fun s => c.user ++ s) rfl
  constructor
  · simp only [LocalhostClient.Prefix, hassoc]
  · simp only [LocalhostClient.Prefix, String.length_append]
    omega

/-- C6: `LocalhostClient.Run` fails (leaving the client unchanged, hence
still running) when the client is already running; otherwise it starts a
`bash` process with arguments `-c <env + snippet>`, leaves the three
standard-stream endpoints live, and transitions the client to running. -/
theorem localhost_run_spec (c : LocalhostClient) (t : Task) :
    (c.running = true →
      LocalhostClient.Run c t = (c, .failed "Command already running"))
    ∧ (c.running = false →
        ( LocalhostClient.Run c t).2 = .started "bash" ["-c", c.env ++ t.run]
        ∧ ( LocalhostClient.Run c t).1.running = true
        ∧ ( LocalhostClient.Run c t).1.stdinLive = true
        ∧ ( LocalhostClient.Run c t).1.stdoutLive = true
        ∧ ( LocalhostClient.Run c t).1.stderrLive = true) := by
  constructor
  · intro h; simp [LocalhostClient.Run, h]
  · intro h; simp [LocalhostClient.Run, h]

/-- Witness for C6 at concrete clients: a running client refuses, an idle
client starts `bash -c` with the env-exports and snippet concatenated. -/
theorem localhost_run_spec_witness :
    LocalhostClient.Run ⟨"u", "export A=\"1\";", true, true, true, true⟩ ⟨"echo hi", [], false⟩
      = (⟨"u", "export A=\"1\";", true, true, true, true⟩, .failed "Command already running")
    ∧ ( LocalhostClient.Run ⟨"u", "export A=\"1\";", false, false, false, false⟩
        ⟨"echo hi", [], false⟩).2 = .started "bash" ["-c", "export A=\"1\";" ++ "echo hi"] :=
  ⟨(localhost_run_spec ⟨"u", "export A=\"1\";", true, true, true, true⟩ ⟨"echo hi", [], false⟩).1 rfl,
   ((localhost_run_spec ⟨"u", "export A=\"1\";", false, false, false, false⟩
     ⟨"echo hi", [], false⟩).2 rfl).1⟩

/-- C8: the `SUP_TIME` entry handed to commands is the run-wide formatted
UTC timestamp, except that a non-empty operator `SUP_TIME` environment
variable pins it to the operator's value; the later `SUP_USER` writes do
not disturb it. -/
theorem supTime_env_entry (netEnv : EnvList)
    (networkName nowRFC3339 supTimeOS supUserOS userOS : String) :
    EnvList.get (setupDefaultEnv netEnv networkName nowRFC3339 supTimeOS supUserOS userOS)
        "SUP_TIME"
      = some (if supTimeOS ≠ "" then supTimeOS else nowRFC3339) := by
  have hTimeUser : ("SUP_TIME" : String) ≠ "SUP_USER" := by decide
  unfold setupDefaultEnv
  by_cases hu : supUserOS ≠ ""
  · rw [if_pos hu, envList_get_set_ne _ _ _ _ hTimeUser]
    by_cases ht : supTimeOS ≠ ""
    · rw [if_pos ht, if_pos ht, envList_get_set_self]
    · rw [if_neg ht, if_neg ht, envList_get_set_self]
  · rw [if_neg hu, envList_get_set_ne _ _ _ _ hTimeUser]
    by_cases ht : supTimeOS ≠ ""
    · rw [if_pos ht, if_pos ht, envList_get_set_self]
    · rw [if_neg ht, if_neg ht, envList_get_set_self]

/-- C9: the connect phase creates one client per host; the client for
host number `j` is a localhost client exactly when the address is the
string `"localhost"`, and otherwise an SSH client whose color is the
palette entry at the host's index modulo the palette size; in both cases
the client's environment is the run's env exports followed by an export
of `SUP_HOST` set to the host address. -/
theorem clients_per_host (env user : String) (palette : List String) (hosts : List String)
    (j : Nat) (hj : j < hosts.length)
    (hc : j < (connectAll env user palette 0 hosts).length) :
    (connectAll env user palette 0 hosts).length = hosts.length
    ∧ (hosts.get ⟨j, hj⟩ = "localhost" →
        (connectAll env user palette 0 hosts).get ⟨j, hc⟩
          = .localhost (env ++ exportHost "localhost"))
    ∧ (hosts.get ⟨j, hj⟩ ≠ "localhost" →
        (connectAll env user palette 0 hosts).get ⟨j, hc⟩
          = .ssh (env ++ exportHost (hosts.get ⟨j, hj⟩)) user
              (palette.getD (j % palette.length) "")) := by
  refine ⟨connectAll_length env user palette hosts 0, ?_, ?_⟩
  · intro h
    rw [connectAll_get env user palette hosts 0 j hj hc, h]
    simp [mkClient]
  · intro h
    rw [connectAll_get env user palette hosts 0 j hj hc]
    unfold mkClient
    rw [if_neg (by simpa using h)]
    simp

/-- Witness for C9 on a concrete two-host network: host 0 (`localhost`)
becomes the local client, host 1 becomes an SSH client with palette
color number `1 % 2`. -/
theorem clients_per_host_witness :
    (connectAll "export A=\"1\";" "u" ["c0", "c1"] 0 ["localhost", "srv1"]).get ⟨1, by decide⟩
      = .ssh ("export A=\"1\";" ++ exportHost "srv1") "u" (["c0", "c1"].getD (1 % 2) "")
    ∧ (connectAll "export A=\"1\";" "u" ["c0", "c1"] 0 ["localhost", "srv1"]).get ⟨0, by decide⟩
      = .localhost ("export A=\"1\";" ++ exportHost "localhost") := by
  have h1 := clients_per_host "export A=\"1\";" "u" ["c0", "c1"] ["localhost", "srv1"] 1
    (by decide) (by decide)
  have h0 := clients_per_host "export A=\"1\";" "u" ["c0", "c1"] ["localhost", "srv1"] 0
    (by decide) (by decide)
  exact ⟨h1.2.2 (by decide), h0.2.1 rfl⟩

theorem applyOnly_pos (f : String → Bool) (hosts : List String) (h : hosts.filter f ≠ []) :
    applyOnly (some f) hosts = .ok (hosts.filter f) := by
  show (if (hosts.filter f).isEmpty = true then Except.error 1
    else Except.ok (hosts.filter f)) = Except.ok (hosts.filter f)
  rw [if_neg (fun hh => h (List.isEmpty_iff.mp hh))]

theorem applyOnly_neg (f : String → Bool) (hosts : List String) (h : hosts.filter f = []) :
    applyOnly (some f) hosts = .error 1 := by
  show (if (hosts.filter f).isEmpty = true then Except.error 1
    else Except.ok (hosts.filter f)) = Except.error 1
  rw [if_pos (List.isEmpty_iff.mpr h)]

theorem applyExcept_pos (g : String → Bool) (hosts : List String)
    (h : hosts.filter (fun x => !(g x)) ≠ []) :
    applyExcept (some g) hosts = .ok (hosts.filter (fun x => !(g x))) := by
  show (if (hosts.filter (fun x => !(g x))).isEmpty = true then Except.error 1
    else Except.ok (hosts.filter (fun x => !(g x)))) = Except.ok (hosts.filter (fun x => !(g x)))
  rw [if_neg (fun hh => h (List.isEmpty_iff.mp hh))]

theorem applyExcept_neg (g : String → Bool) (hosts : List String)
    (h : hosts.filter (fun x => !(g x)) = []) :
    applyExcept (some g) hosts = .error 1 := by
  show (if (hosts.filter (fun x => !(g x))).isEmpty = true then Except.error 1
    else Except.ok (hosts.filter (fun x => !(g x)))) = Except.error 1
  rw [if_pos (List.isEmpty_iff.mpr h)]

/-- C5: with `--only` matching `f` and `--except` matching `g`, the host
list becomes the hosts matching `f` minus those matching `g`, applied in
that order and preserving host order (the result is a sublist of the
original list); when either step leaves no host, `main` exits with
status 1 and no host reaches the run, so no client connection is
attempted. -/
theorem host_filtering_spec (f g : String → Bool) (hosts : List String) :
    (hosts.filter f ≠ [] → (hosts.filter f).filter (fun h => !(g h)) ≠ [] →
      filterHosts (some f) (some g) hosts = .ok ((hosts.filter f).filter (fun h => !(g h)))
      ∧ List.Sublist ((hosts.filter f).filter (fun h => !(g h))) hosts)
    ∧ (hosts.filter f = [] → hostsPhase (some f) (some g) hosts = (some 1, []))
    ∧ ((hosts.filter f).filter (fun h => !(g h)) = [] →
        hostsPhase (some f) (some g) hosts = (some 1, [])) := by
  refine ⟨?_, ?_, ?_⟩
  · intro h1 h2
    constructor
    · simp only [filterHosts, applyOnly_pos f hosts h1,
        applyExcept_pos g (hosts.filter f) h2]
    · exact List.Sublist.trans (List.filter_sublist _) (List.filter_sublist _)
  · intro h1
    simp only [hostsPhase, filterHosts, applyOnly_neg f hosts h1]
  · intro h2
    by_cases h1 : hosts.filter f = []
    · simp only [hostsPhase, filterHosts, applyOnly_neg f hosts h1]
    · simp only [hostsPhase, filterHosts, applyOnly_pos f hosts h1,
        applyExcept_neg g (hosts.filter f) h2]

/-- Witness for C5 at a concrete host list: `--only (a|b)` keeps
`["a", "b"]` of `["a", "b", "c"]`, `--except b` then leaves `["a"]`;
and an `--except` that wipes out every host exits with status 1. -/
theorem host_filtering_spec_witness :
    filterHosts (some (fun h => h == "a" || h == "b")) (some (fun h => h == "b"))
        ["a", "b", "c"] = .ok ["a"]
    ∧ hostsPhase (some (fun h => h == "a" || h == "b")) (some (fun _ => true))
        ["a", "b", "c"] = (some 1, []) := by
  have h1 := (host_filtering_spec (fun h => h == "a" || h == "b") (fun h => h == "b")
    ["a", "b", "c"]).1 (by decide) (by decide)
  have h2 := (host_filtering_spec (fun h => h == "a" || h == "b") (fun _ => true)
    ["a", "b", "c"]).2.2 (by decide)
  exact ⟨h1.1, h2⟩

/-- C1 counterexample: a waiter that receives an `ExitError` with status
15 does not treat it as a non-error — it prints the error and exits with
status 1, instead of letting the run continue. -/
theorem wait_status15_not_suppressed :
    waiterOutcome false 0 ("", 0) (some (.exitError 15 "Process exited with status 15"))
      = .printedExit "Process exited with status 15" 1
    ∧ waiterOutcome false 0 ("", 0) (some (.exitError 15 "Process exited with status 15"))
      ≠ .continueRun := by
  constructor
  · rfl
  · intro h; exact WaiterResult.noConfusion h

/-- C1 amended: when `Wait` returns an error the run prints it with the
client's padded label and terminates; the exit status is the `ExitError`'s
numeric code when one is available and different from 15, and 1 in every
other case — in particular an `ExitError` with status 15 is not
suppressed, it terminates the run with status 1. A nil error lets the
run continue. -/
theorem waiter_exit_policy (withPfx : Bool) (maxLen : Nat) (pfxPair : String × Nat)
    (res : Option WaitErr) :
    (res = none → waiterOutcome withPfx maxLen pfxPair res = .continueRun)
    ∧ (∀ s msg, res = some (.exitError s msg) →
        waiterOutcome withPfx maxLen pfxPair res
          = .printedExit
              ((if withPfx then padPrefix maxLen pfxPair.1 pfxPair.2 else "") ++ msg)
              (if s = 15 then 1 else s))
    ∧ (∀ msg, res = some (.otherError msg) →
        waiterOutcome withPfx maxLen pfxPair res
          = .printedExit
              ((if withPfx then padPrefix maxLen pfxPair.1 pfxPair.2 else "") ++ msg) 1) := by
  refine ⟨?_, ?_, ?_⟩
  · intro h; rw [h]; rfl
  · intro s msg h
    rw [h]
    by_cases hs : s = 15
    · simp [waiterOutcome, hs]
    · simp [waiterOutcome, hs]
  · intro msg h
    rw [h]
    simp [waiterOutcome]

/-- Witness for C1 (amended) at concrete inputs: an `ExitError` with
status 7 exits with 7, one with status 15 exits with 1, a plain error
exits with 1, and a nil error continues. -/
theorem waiter_exit_policy_witness :
    waiterOutcome true 5 ("p", 1) (some (.exitError 7 "exit 7"))
      = .printedExit ( padPrefix 5 "p" 1 ++ "exit 7") 7
    ∧ waiterOutcome true 5 ("p", 1) (some (.exitError 15 "exit 15"))
      = .printedExit ( padPrefix 5 "p" 1 ++ "exit 15") 1
    ∧ waiterOutcome true 5 ("p", 1) (some (.otherError "broken"))
      = .printedExit ( padPrefix 5 "p" 1 ++ "broken") 1
    ∧ waiterOutcome true 5 ("p", 1) none = .continueRun := by
  have h := waiter_exit_policy true 5 ("p", 1)
  refine ⟨?_, ?_, ?_, (h none).1 rfl⟩
  · simpa using (h (some (.exitError 7 "exit 7"))).2.1 7 "exit 7" rfl
  · simpa using (h (some (.exitError 15 "exit 15"))).2.1 15 "exit 15" rfl
  · simpa using (h (some (.otherError "broken"))).2.2 "broken" rfl

/-- The localhost client of the C2 failing run: user `a`, so its label
has printable width 14 but raw width 18 (the 4-byte color reset). -/
def lcA : LocalhostClient := ⟨"a", "", false, false, false, false⟩

/-- C2: the padding guard compares the label's raw length (color escapes
included) with `maxLen` instead of its printable length. In a run whose
clients have printable widths 14 (localhost, raw width 18) and 16,
`maxLen = 16`, yet the localhost label is left unpadded — its emitted
printable width stays 14, not `maxLen`. -/
theorem padding_skipped_for_escaped_label :
    ( LocalhostClient.Prefix lcA).2 = 14
    ∧ ( LocalhostClient.Prefix lcA).1.length = 18
    ∧ maxPrefixLen [( LocalhostClient.Prefix lcA).2, 16] = 16
    ∧ padPrefix 16 ( LocalhostClient.Prefix lcA).1 ( LocalhostClient.Prefix lcA).2
        = ( LocalhostClient.Prefix lcA).1
    ∧ ( LocalhostClient.Prefix lcA).2
        + (( padPrefix 16 ( LocalhostClient.Prefix lcA).1
              ( LocalhostClient.Prefix lcA).2).length
            - ( LocalhostClient.Prefix lcA).1.length)
        ≠ 16 := by
  refine ⟨rfl, by decide, by decide, ?_, by decide⟩
  decide

/-- C3: for a task with an input source whose client set is a strict
subset of the run's clients (here client 0 of clients 0 and 1), the
stdin pump copies the input into exactly the task's recorded stdin
writers, but afterwards calls `WriteClose` on every client of the run —
not only on the task's clients, contrary to the claim. -/
theorem stdin_pump_closes_all_clients :
    runStdinPump [0, 1] ⟨"cat", [0], true⟩ = some ⟨[0], [0, 1]⟩
    ∧ (runStdinPump [0, 1] ⟨"cat", [0], true⟩).map StdinPumpTrace.closeTargets ≠ some [0]
    ∧ (runStdinPump [0, 1] ⟨"cat", [0], true⟩).map StdinPumpTrace.copyTargets = some [0] := by
  refine ⟨rfl, ?_, rfl⟩
  decide

/-- Configuration for the C4 counterexample: `deploy` is both a target
(expanding to the command `build`) and a command. -/
def conf0 : Conf := ⟨[("deploy", ["build"])], ["build", "deploy"]⟩

/-- C4 counterexample: on a name that is both a target and a command the
source appends the target's expansion and then the command itself — two
contributions — while resolution "first as a command name and otherwise
as a target name" would dispatch the command alone. -/
theorem resolve_both_target_and_command :
    resolveArg conf0 "deploy" = .ok ["build", "deploy"]
    ∧ claimResolveArg conf0 "deploy" = .ok ["deploy"]
    ∧ resolveArg conf0 "deploy" ≠ claimResolveArg conf0 "deploy" := by
  refine ⟨rfl, rfl, ?_⟩
  intro h
  have h2 : (Except.ok ["build", "deploy"] : Except String (List String))
      = Except.ok ["deploy"] := h
  simp at h2

/-- C4 amended: each argument after NETWORK is looked up as a target
first; if it is one, the target's commands are appended in order (an
unknown member fails with the unknown-command error), and if the name
is also a command it is appended once more after the expansion; a name
that is only a command contributes itself once; a name that is neither
fails with the unknown-command error; arguments contribute left to
right. -/
theorem arg_resolution_spec (conf : Conf) (n : String) :
    (lookupTarget conf n = none → isCommand conf n = false →
      resolveArg conf n = .error ("Unknown command/target: " ++ n))
    ∧ (lookupTarget conf n = none → isCommand conf n = true →
        resolveArg conf n = .ok [n])
    ∧ (∀ tnames expanded, lookupTarget conf n = some tnames →
        expandTarget conf tnames = .ok expanded →
        resolveArg conf n = .ok (expanded ++ (if isCommand conf n then [n] else [])))
    ∧ (∀ tnames e, lookupTarget conf n = some tnames →
        expandTarget conf tnames = .error e →
        resolveArg conf n = .error e)
    ∧ (∀ rest cs cs2, resolveArg conf n = .ok cs →
        parseArgsCommands conf rest = .ok cs2 →
        parseArgsCommands conf (n :: rest) = .ok (cs ++ cs2)) := by
  refine ⟨?_, ?_, ?_, ?_, ?_⟩
  · intro ht hcmd
    simp [resolveArg, ht, hcmd]
  · intro ht hcmd
    simp [resolveArg, ht, hcmd]
  · intro tnames expanded ht hexp
    simp [resolveArg, ht, hexp]
  · intro tnames e ht hexp
    simp [resolveArg, ht, hexp]
  · intro rest cs cs2 hr hp
    simp [parseArgsCommands, hr, hp]

/-- Witness for C4 (amended) at the concrete configuration `conf0`: the
dual name `deploy` dispatches `build` then `deploy`, the plain command
`build` dispatches itself, and both contribute in argument order. -/
theorem arg_resolution_spec_witness :
    resolveArg conf0 "deploy" = .ok (["build"] ++ ["deploy"])
    ∧ resolveArg conf0 "build" = .ok ["build"]
    ∧ parseArgsCommands conf0 ["build", "deploy"] = .ok (["build"] ++ ["build", "deploy"]) := by
  have h1 := (arg_resolution_spec conf0 "deploy").2.2.1 ["build"] ["build"] rfl rfl
  have h1b : resolveArg conf0 "deploy" = .ok (["build"] ++ ["deploy"]) := h1
  have h2 := (arg_resolution_spec conf0 "build").2.1 rfl rfl
  have htail : parseArgsCommands conf0 ["deploy"] = .ok ["build", "deploy"] :=
    (arg_resolution_spec conf0 "deploy").2.2.2.2 [] ["build", "deploy"] [] h1b rfl
  have h3 : parseArgsCommands conf0 ["build", "deploy"]
      = .ok (["build"] ++ ["build", "deploy"]) :=
    (arg_resolution_spec conf0 "build").2.2.2.2 ["deploy"] ["build"] ["build", "deploy"] h2 htail
  exact ⟨h1b, h2, h3⟩

end Sup
